import Mathlib

/-!
Verification of the core logic of `Tornberry/frontend-assignment-senior`:
the multi-step form controller (`src/task3/context/form-context.tsx`) and
the filtered GitHub-user list (`src/task1/components/githubUsers.tsx`).

The TypeScript code is shallowly embedded: React state updates become pure
state transformers on an explicit `FormState`; the zod schemas become
issue-list computations mirroring zod's behaviour (`.min(1, msg)` records an
issue on the empty string, a `.refine` runs even when `.min` already failed
and appends its issue; `flatten().fieldErrors` keeps the issues per field in
order, and the controller keeps `messages[0]`). JavaScript string lengths
are modelled by codepoint counts and `trim` by `String.trim`.
-/

/-- The `FormData` record of `form-context.tsx`. -/
structure FormData where
  name : String
  email : String
  phone : String
  address : String
  preferences : String
  newsletter : Bool
deriving DecidableEq, Repr

/-- The `errors` record: at most one message per known field
(`newsletter` is included for completeness; `z.boolean()` never fails on a
boolean, so its slot stays `none`). -/
structure FormErrors where
  name : Option String
  email : Option String
  phone : Option String
  address : Option String
  preferences : Option String
  newsletter : Option String
deriving DecidableEq, Repr

/-- The empty `errors` record (`{}` in the source). -/
def noErrors : FormErrors := ⟨none, none, none, none, none, none⟩

/-- zod `z.string().min(1, msg)`: one issue when the string is empty. -/
def minCheck (v : String) (msg : String) : List String :=
  if v.length < 1 then [msg] else []

/-- zod `.refine(p, msg)`: one issue when the predicate fails (it runs even
when the base `.min` check already failed, adding its issue after it). -/
def refineCheck (p : String → Bool) (msg : String) (v : String) : List String :=
  if p v then [] else [msg]

/-- JavaScript `String.prototype.trim`: strip whitespace from both ends. -/
def trimChars (l : List Char) : List Char :=
  ((l.dropWhile Char.isWhitespace).reverse.dropWhile Char.isWhitespace).reverse

/-- `(val) => val.trim().length >= 2` from `step1Schema`. -/
def nameOk (s : String) : Bool := decide (2 ≤ (trimChars s.toList).length)

/-- A character allowed by `[^\s@]` in the email regular expression. -/
def isEmailChar (c : Char) : Bool := !c.isWhitespace && !(c = '@')

/-- `^[^\s@]+@[^\s@]+\.[^\s@]+$` from `step1Schema`: the string splits as
`a ++ "@" ++ b ++ "." ++ c` with `a`, `b`, `c` nonempty and free of
whitespace and `@`.  Since `a` may not contain `@`, the split is at the
first `@`; the part after it must carry some `.` strictly inside. -/
def emailShape (s : String) : Bool :=
  let l := s.toList
  let before := l.takeWhile (fun c => !(c = '@'))
  match l.dropWhile (fun c => !(c = '@')) with
  | [] => false
  | _ :: after =>
    !before.isEmpty && before.all isEmailChar && after.all isEmailChar &&
      ((after.drop 1).dropLast.contains '.')

/-- `(val) => val.trim().length >= 10` from `step2Schema`. -/
def phoneOk (s : String) : Bool := decide (10 ≤ (trimChars s.toList).length)

/-- `(val) => val.trim().length >= 5` from `step2Schema`. -/
def addressOk (s : String) : Bool := decide (5 ≤ (trimChars s.toList).length)

/-- Issues zod reports for `name` under `step1Schema`. -/
def nameIssues (v : String) : List String :=
  minCheck v "Name is required" ++
    refineCheck nameOk "Name must be at least 2 characters" v

/-- Issues zod reports for `email` under `step1Schema`. -/
def emailIssues (v : String) : List String :=
  minCheck v "Email is required" ++
    refineCheck emailShape "Invalid email address" v

/-- Issues zod reports for `phone` under `step2Schema`. -/
def phoneIssues (v : String) : List String :=
  minCheck v "Phone is required" ++
    refineCheck phoneOk "Phone must be at least 10 characters" v

/-- Issues zod reports for `address` under `step2Schema`. -/
def addressIssues (v : String) : List String :=
  minCheck v "Address is required" ++
    refineCheck addressOk "Address must be at least 5 characters" v

/-- Issues zod reports for `preferences` under `step3Schema`. -/
def preferencesIssues (v : String) : List String :=
  minCheck v "Please select a preference"

/-- The boolean result of `validateStep(step)`: whether the step's schema
`parse` throws no `ZodError`.  Steps other than 1, 2, 3 run no schema, so
they validate trivially. -/
def stepValid (step : Int) (fd : FormData) : Bool :=
  if step = 1 then (nameIssues fd.name).isEmpty && (emailIssues fd.email).isEmpty
  else if step = 2 then (phoneIssues fd.phone).isEmpty && (addressIssues fd.address).isEmpty
  else if step = 3 then (preferencesIssues fd.preferences).isEmpty
  else true

/-- The `errors` record `validateStep(step)` installs: on success `{}`;
on failure, `messages[0]` of each field's issue list (`head?`), exactly the
`flatten().fieldErrors` / `messages[0]` processing of the catch branch.
Fields with no issues get no entry, so both branches are `head?`. -/
def computeErrors (step : Int) (fd : FormData) : FormErrors :=
  if step = 1 then
    { noErrors with name := (nameIssues fd.name).head?, email := (emailIssues fd.email).head? }
  else if step = 2 then
    { noErrors with phone := (phoneIssues fd.phone).head?, address := (addressIssues fd.address).head? }
  else if step = 3 then
    { noErrors with preferences := (preferencesIssues fd.preferences).head? }
  else noErrors

/-- The form controller's state: the four `useState` cells of `FormProvider`. -/
structure FormState where
  formData : FormData
  errors : FormErrors
  currentStep : Int
  isSubmitting : Bool
deriving DecidableEq, Repr

/-- The initial `formData` of `FormProvider`. -/
def initialFormData : FormData := ⟨"", "", "", "", "", false⟩

/-- The initial state: empty fields, no errors, step 1, not submitting. -/
def initialState : FormState := ⟨initialFormData, noErrors, 1, false⟩

/-- The known field names of `FormData`. -/
inductive FieldName
  | name | email | phone | address | preferences | newsletter
deriving DecidableEq, Repr

/-- A value passed to `updateField` (`string | boolean`). -/
inductive FieldVal
  | str (s : String)
  | flag (b : Bool)
deriving DecidableEq, Repr

/-- `formData = {...prev, [field]: value}`.  The typed call sites pass
strings to the string fields and a boolean to `newsletter`; a
type-mismatched write (impossible from the typed UI) leaves the record. -/
def setField (fd : FormData) : FieldName → FieldVal → FormData
  | .name, .str s => { fd with name := s }
  | .email, .str s => { fd with email := s }
  | .phone, .str s => { fd with phone := s }
  | .address, .str s => { fd with address := s }
  | .preferences, .str s => { fd with preferences := s }
  | .newsletter, .flag b => { fd with newsletter := b }
  | _, _ => fd

/-- Look up `errors[field]`. -/
def getError (e : FormErrors) : FieldName → Option String
  | .name => e.name
  | .email => e.email
  | .phone => e.phone
  | .address => e.address
  | .preferences => e.preferences
  | .newsletter => e.newsletter

/-- `delete newErrors[field]`. -/
def clearError (e : FormErrors) : FieldName → FormErrors
  | .name => { e with name := none }
  | .email => { e with email := none }
  | .phone => { e with phone := none }
  | .address => { e with address := none }
  | .preferences => { e with preferences := none }
  | .newsletter => { e with newsletter := none }

/-- `updateField(field, value)`: set the field; if an error message for it
was present, delete it. -/
def updateField (f : FieldName) (v : FieldVal) (s : FormState) : FormState :=
  { s with
    formData := setField s.formData f v,
    errors := if (getError s.errors f).isSome then clearError s.errors f else s.errors }

/-- `validateStep(step)` as a state transformer: it replaces `errors`
wholesale with the computed record (its boolean result is `stepValid`). -/
def validateStepOp (step : Int) (s : FormState) : FormState :=
  { s with errors := computeErrors step s.formData }

/-- `nextStep()`: run `validateStep(currentStep)`; on success also
`currentStep = Math.min(currentStep + 1, 3)`. -/
def nextStep (s : FormState) : FormState :=
  let s' := validateStepOp s.currentStep s
  if stepValid s.currentStep s.formData then
    { s' with currentStep := min (s.currentStep + 1) 3 }
  else s'

/-- `prevStep()`: unconditionally `currentStep = Math.max(currentStep - 1, 1)`
and `errors = {}`. -/
def prevStep (s : FormState) : FormState :=
  { s with currentStep := max (s.currentStep - 1) 1, errors := noErrors }

/-- `submitForm()`, run to completion (the awaited delay is modelled as the
single atomic completion of the call).  The boolean records whether the
simulated remote submission was performed.  On validation failure the call
returns early with the computed errors installed; on success the submission
runs and every state cell is reset to its initial value. -/
def submitFormR (s : FormState) : FormState × Bool :=
  if stepValid s.currentStep s.formData then (initialState, true)
  else ({ s with errors := computeErrors s.currentStep s.formData }, false)

/-- One user-triggered controller operation. -/
inductive Op
  | update (f : FieldName) (v : FieldVal)
  | validate (step : Int)
  | next
  | prev
  | submit
deriving DecidableEq, Repr

/-- Apply one operation to the state. -/
def applyOp (s : FormState) : Op → FormState
  | .update f v => updateField f v s
  | .validate st => validateStepOp st s
  | .next => nextStep s
  | .prev => prevStep s
  | .submit => (submitFormR s).1

/-- Run a sequence of operations from a state. -/
def runOps (s : FormState) (ops : List Op) : FormState :=
  ops.foldl applyOp s

/-- A GitHub user record as consumed by `githubUsers.tsx` (`types/user.ts`;
only the fields the component reads). -/
structure User where
  login : String
  id : Nat
  avatar_url : String
  html_url : String
deriving DecidableEq, Repr

/-- `a.startsWith(b)` over character lists: `startsWithList l sub` is true
when `sub` is an initial segment of `l`. -/
def startsWithList : List Char → List Char → Bool
  | _, [] => true
  | [], _ :: _ => false
  | c :: cs, d :: ds => c = d && startsWithList cs ds

/-- Occurrence of `sub` as a contiguous run of `l`
(JavaScript `l.includes(sub)`; the empty `sub` always occurs). -/
def hasSub (sub : List Char) : List Char → Bool
  | [] => sub.isEmpty
  | c :: t => startsWithList (c :: t) sub || hasSub sub t

/-- JavaScript `s.includes(pat)` on strings. -/
def includesStr (s pat : String) : Bool := hasSub pat.toList s.toList

/-- JavaScript `s.toLowerCase()` (ASCII case mapping). -/
def lowerStr (s : String) : String := ⟨s.toList.map Char.toLower⟩

/-- The `filteredUsers` computation of `GitHubUsers`:
`data.filter(user => user.login.toLowerCase().includes(searchTerm.toLowerCase()))`. -/
def filteredUsers (users : List User) (searchTerm : String) : List User :=
  users.filter (fun u => includesStr (lowerStr u.login) (lowerStr searchTerm))

/-- The validation-rule policy table of the specification, per field: the
empty-value rule first (its message wins), then the length/shape rule. -/
def policyFieldError (v : String) (emptyMsg : String) (shapeOk : String → Bool)
    (shapeMsg : String) : Option String :=
  if v = "" then some emptyMsg
  else if shapeOk v then none
  else some shapeMsg

/-- The errors record the specification's rule policy table prescribes for
one step (steps other than 1, 2, 3 own no fields). -/
def policyErrors (step : Int) (fd : FormData) : FormErrors :=
  if step = 1 then
    { noErrors with
      name := policyFieldError fd.name "Name is required" nameOk
        "Name must be at least 2 characters",
      email := policyFieldError fd.email "Email is required" emailShape
        "Invalid email address" }
  else if step = 2 then
    { noErrors with
      phone := policyFieldError fd.phone "Phone is required" phoneOk
        "Phone must be at least 10 characters",
      address := policyFieldError fd.address "Address is required" addressOk
        "Address must be at least 5 characters" }
  else if step = 3 then
    { noErrors with
      preferences := if fd.preferences = "" then some "Please select a preference" else none }
  else noErrors

/-- The step-bounds invariant of the controller. -/
def stepInBounds (s : FormState) : Prop :=
  1 ≤ s.currentStep ∧ s.currentStep ≤ 3

lemma applyOp_stepInBounds (s : FormState) (op : Op) (h : stepInBounds s) :
    stepInBounds (applyOp s op) := by
  obtain ⟨h1, h2⟩ := h
  cases op with
  | update f v => exact ⟨h1, h2⟩
  | validate st => exact ⟨h1, h2⟩
  | next =>
    simp only [applyOp, nextStep, validateStepOp, stepInBounds]
    split <;> simp only [] <;> omega
  | prev =>
    simp only [applyOp, prevStep, stepInBounds]
    omega
  | submit =>
    simp only [applyOp, submitFormR, stepInBounds]
    split
    · exact ⟨by decide, by decide⟩
    · exact ⟨h1, h2⟩

lemma runOps_stepInBounds (ops : List Op) :
    ∀ s, stepInBounds s → stepInBounds (runOps s ops) := by
  induction ops with
  | nil => intro s h; exact h
  | cons op t ih =>
    intro s h
    exact ih (applyOp s op) (applyOp_stepInBounds s op h)

/-- C1: every sequence of controller operations applied to the initial
state keeps `currentStep` within `[1, 3]`. -/
theorem step_always_in_bounds (ops : List Op) :
    1 ≤ (runOps initialState ops).currentStep ∧
      (runOps initialState ops).currentStep ≤ 3 :=
  runOps_stepInBounds ops initialState ⟨by decide, by decide⟩

lemma hasSub_nil (l : List Char) : hasSub [] l = true := by
  cases l <;> simp [hasSub, startsWithList]

/-- C4: filtering is a sublist of the input, keeps exactly the users whose
login contains the query case-insensitively, and the empty query keeps the
whole list. -/
theorem filtered_users_spec (users : List User) (q : String) :
    (filteredUsers users q).Sublist users ∧
    (∀ u, u ∈ filteredUsers users q →
      includesStr (lowerStr u.login) (lowerStr q) = true) ∧
    (∀ u, u ∈ users → u ∉ filteredUsers users q →
      includesStr (lowerStr u.login) (lowerStr q) = false) ∧
    filteredUsers users "" = users := by
  refine ⟨List.filter_sublist _, ?_, ?_, ?_⟩
  · intro u hu
    exact (List.mem_filter.mp hu).2
  · intro u hu hnot
    cases hb : includesStr (lowerStr u.login) (lowerStr q) with
    | false => rfl
    | true => exact absurd (List.mem_filter.mpr ⟨hu, hb⟩) hnot
  · apply List.filter_eq_self.mpr
    intro a _
    exact hasSub_nil (lowerStr a.login).toList

/-- A concrete filtering run exercising `filtered_users_spec`. -/
theorem filtered_users_spec_witness :
    includesStr (lowerStr "alice") (lowerStr "ALI") = true ∧
    filteredUsers [⟨"alice", 1, "", ""⟩, ⟨"bob", 2, "", ""⟩] "" =
      [⟨"alice", 1, "", ""⟩, ⟨"bob", 2, "", ""⟩] :=
  ⟨(filtered_users_spec [⟨"alice", 1, "", ""⟩, ⟨"bob", 2, "", ""⟩] "ALI").2.1
      ⟨"alice", 1, "", ""⟩ (by decide),
   (filtered_users_spec [⟨"alice", 1, "", ""⟩, ⟨"bob", 2, "", ""⟩] "").2.2.2⟩

lemma length_lt_one_iff (s : String) : s.length < 1 ↔ s = "" := by
  cases s with
  | mk data =>
    cases data with
    | nil => simp [String.length]
    | cons c t => simp [String.length, String.ext_iff]

lemma head_min_refine (v m1 : String) (p : String → Bool) (m2 : String) :
    (minCheck v m1).head?.or (refineCheck p m2 v).head? = policyFieldError v m1 p m2 := by
  by_cases hv : v = ""
  · have hl : v.length < 1 := (length_lt_one_iff v).mpr hv
    simp [minCheck, refineCheck, policyFieldError, hl, hv]
  · have hl : ¬ v.length < 1 := fun h => hv ((length_lt_one_iff v).mp h)
    cases hp : p v <;>
      simp [minCheck, refineCheck, policyFieldError, hl, hv, hp]

lemma head_min (v m : String) :
    (minCheck v m).head? = if v = "" then some m else none := by
  by_cases hv : v = ""
  · have hl : v.length < 1 := (length_lt_one_iff v).mpr hv
    simp [minCheck, hl, hv]
  · have hl : ¬ v.length < 1 := fun h => hv ((length_lt_one_iff v).mp h)
    simp [minCheck, hl, hv]

/-- C2: the errors `validateStep` computes (via the zod issue lists and
`messages[0]`) are exactly what the rule-policy table prescribes, the
empty-value message winning over the length/shape message; in particular,
scenario B on step 1 with `name=""`, `email="x"`. -/
theorem validate_errors_match_policy (st : Int) (fd : FormData) :
    computeErrors st fd = policyErrors st fd ∧
    computeErrors 1 ⟨"", "x", "", "", "", false⟩ =
      { noErrors with
        name := some "Name is required", email := some "Invalid email address" } := by
  refine ⟨?_, by decide⟩
  by_cases h1 : st = 1
  · simp [computeErrors, policyErrors, h1, nameIssues, emailIssues, head_min_refine]
  · by_cases h2 : st = 2
    · simp [computeErrors, policyErrors, h1, h2, phoneIssues, addressIssues, head_min_refine]
    · by_cases h3 : st = 3
      · simp [computeErrors, policyErrors, h1, h2, h3, preferencesIssues, head_min]
      · simp [computeErrors, policyErrors, h1, h2, h3]

/-- C10: a step outside {1, 2, 3} runs no schema: `validateStep` reports
success and installs the empty errors record. -/
theorem out_of_range_step_validates_trivially (st : Int) (fd : FormData)
    (h1 : st ≠ 1) (h2 : st ≠ 2) (h3 : st ≠ 3) :
    stepValid st fd = true ∧ computeErrors st fd = noErrors := by
  simp [stepValid, computeErrors, h1, h2, h3]

/-- A concrete out-of-range call exercising
`out_of_range_step_validates_trivially`. -/
theorem out_of_range_step_validates_trivially_witness :
    stepValid 0 initialFormData = true ∧ computeErrors 0 initialFormData = noErrors :=
  out_of_range_step_validates_trivially 0 initialFormData
    (by decide) (by decide) (by decide)

/-- C7: `prevStep` unconditionally moves to `max(step - 1, 1)` and clears
`errors`, leaving the fields and the submitting flag alone. -/
theorem prev_step_spec (s : FormState) :
    (prevStep s).currentStep = max (s.currentStep - 1) 1 ∧
    (prevStep s).errors = noErrors ∧
    (prevStep s).formData = s.formData ∧
    (prevStep s).isSubmitting = s.isSubmitting :=
  ⟨rfl, rfl, rfl, rfl⟩

lemma computeErrors_ne_noErrors_of_invalid (st : Int) (fd : FormData)
    (h : stepValid st fd = false) : computeErrors st fd ≠ noErrors := by
  intro hc
  by_cases h1 : st = 1
  · simp [computeErrors, h1, noErrors, FormErrors.mk.injEq] at hc
    simp [stepValid, h1, hc.1, hc.2] at h
  · by_cases h2 : st = 2
    · simp [computeErrors, h1, h2, noErrors, FormErrors.mk.injEq] at hc
      simp [stepValid, h1, h2, hc.1, hc.2] at h
    · by_cases h3 : st = 3
      · simp [computeErrors, h1, h2, h3, noErrors, FormErrors.mk.injEq] at hc
        simp [stepValid, h1, h2, h3, hc] at h
      · simp [stepValid, h1, h2, h3] at h

/-- C6: `nextStep` validates the current step; on success the step becomes
`min(step + 1, 3)`, on failure the step is unchanged and the installed
errors are the computed, non-empty failures. -/
theorem next_step_spec (s : FormState) :
    (stepValid s.currentStep s.formData = true →
      (nextStep s).currentStep = min (s.currentStep + 1) 3) ∧
    (stepValid s.currentStep s.formData = false →
      (nextStep s).currentStep = s.currentStep ∧
      (nextStep s).errors = computeErrors s.currentStep s.formData ∧
      (nextStep s).errors ≠ noErrors) := by
  constructor
  · intro h
    simp [nextStep, validateStepOp, h]
  · intro h
    have hn : nextStep s = { s with errors := computeErrors s.currentStep s.formData } := by
      simp [nextStep, validateStepOp, h]
    rw [hn]
    exact ⟨rfl, rfl, computeErrors_ne_noErrors_of_invalid _ _ h⟩

/-- A concrete failing `nextStep` run exercising `next_step_spec`: from the
initial state (step 1, empty fields) the step stays 1 and errors are
non-empty. -/
theorem next_step_spec_witness :
    (nextStep initialState).currentStep = 1 ∧ (nextStep initialState).errors ≠ noErrors :=
  ⟨((next_step_spec initialState).2 (by decide)).1,
   ((next_step_spec initialState).2 (by decide)).2.2⟩

/-- C8: `validateStep` is a pure function of the fields and the step: its
boolean result and the installed errors ignore the previous `errors` (they
are replaced wholesale), and re-validating with unchanged fields is
idempotent. -/
theorem validate_step_pure (st : Int) (s1 s2 : FormState)
    (h : s1.formData = s2.formData) :
    (validateStepOp st s1).errors = (validateStepOp st s2).errors ∧
    stepValid st s1.formData = stepValid st s2.formData ∧
    (validateStepOp st (validateStepOp st s1)).errors = (validateStepOp st s1).errors := by
  refine ⟨?_, by rw [h], ?_⟩
  · simp [validateStepOp, h]
  · simp [validateStepOp]

/-- A concrete run exercising `validate_step_pure`: two states sharing the
fields but differing in errors, step and submitting flag validate alike. -/
theorem validate_step_pure_witness :
    (validateStepOp 1 ⟨initialFormData, computeErrors 2 initialFormData, 2, true⟩).errors =
      (validateStepOp 1 initialState).errors :=
  (validate_step_pure 1 ⟨initialFormData, computeErrors 2 initialFormData, 2, true⟩
    initialState rfl).1

/-- C5: when `validateStep(currentStep)` succeeds, `submitForm` performs the
submission and, once the simulated call completes, the whole state equals
its initial value: empty fields, `newsletter = false`, no errors, step 1,
not submitting. -/
theorem submit_success_resets (s : FormState)
    (h : stepValid s.currentStep s.formData = true) :
    submitFormR s = (⟨⟨"", "", "", "", "", false⟩, noErrors, 1, false⟩, true) := by
  simp [submitFormR, h, initialState, initialFormData]

/-- A concrete successful submission exercising `submit_success_resets`. -/
theorem submit_success_resets_witness :
    submitFormR ⟨⟨"Alice", "a@b.com", "0123456789", "5 High St", "email", true⟩,
        noErrors, 3, false⟩ =
      (⟨⟨"", "", "", "", "", false⟩, noErrors, 1, false⟩, true) :=
  submit_success_resets _ (by decide)

/-- C9: when `validateStep(currentStep)` fails, `submitForm` aborts: no
submission, fields, step and submitting flag unchanged, and the computed
validation failures installed as `errors`. -/
theorem submit_invalid_aborts (s : FormState)
    (h : stepValid s.currentStep s.formData = false) :
    (submitFormR s).2 = false ∧
    (submitFormR s).1.formData = s.formData ∧
    (submitFormR s).1.currentStep = s.currentStep ∧
    (submitFormR s).1.isSubmitting = s.isSubmitting ∧
    (submitFormR s).1.errors = computeErrors s.currentStep s.formData := by
  simp [submitFormR, h]

/-- A concrete aborted submission exercising `submit_invalid_aborts`: from
the initial state (step 1, empty fields) nothing but `errors` changes. -/
theorem submit_invalid_aborts_witness :
    (submitFormR initialState).2 = false ∧
    (submitFormR initialState).1.formData = initialState.formData ∧
    (submitFormR initialState).1.currentStep = initialState.currentStep ∧
    (submitFormR initialState).1.isSubmitting = initialState.isSubmitting ∧
    (submitFormR initialState).1.errors =
      computeErrors initialState.currentStep initialState.formData :=
  submit_invalid_aborts initialState (by decide)

/-- C3 fails on the code: `submitForm` has no step guard.  At step 1 with a
valid name and email it performs the submission and resets the fields. -/
theorem submit_not_step_guarded_counterexample :
    (⟨⟨"Al", "a@b.com", "", "", "", false⟩, noErrors, 1, false⟩ : FormState).currentStep < 3 ∧
    (submitFormR ⟨⟨"Al", "a@b.com", "", "", "", false⟩, noErrors, 1, false⟩).2 = true ∧
    (submitFormR ⟨⟨"Al", "a@b.com", "", "", "", false⟩, noErrors, 1, false⟩).1.formData ≠
      (⟨⟨"Al", "a@b.com", "", "", "", false⟩, noErrors, 1, false⟩ : FormState).formData := by
  decide

/-- C3 amended: `submitForm` itself never checks the step; invoking it
below the terminal step performs no submission and leaves fields and step
unchanged only when `validateStep(currentStep)` fails. -/
theorem submit_below_terminal_invalid_no_submission (s : FormState)
    (_hstep : s.currentStep < 3)
    (h : stepValid s.currentStep s.formData = false) :
    (submitFormR s).2 = false ∧
    (submitFormR s).1.formData = s.formData ∧
    (submitFormR s).1.currentStep = s.currentStep := by
  simp [submitFormR, h]

/-- A concrete below-terminal aborted submission exercising
`submit_below_terminal_invalid_no_submission`. -/
theorem submit_below_terminal_invalid_no_submission_witness :
    (submitFormR initialState).2 = false ∧
    (submitFormR initialState).1.formData = initialState.formData ∧
    (submitFormR initialState).1.currentStep = initialState.currentStep :=
  submit_below_terminal_invalid_no_submission initialState (by decide) (by decide)
